import Mathlib

/-!
Shallow embedding of the go-mrcp media-processing core: the Context /
association-matrix topology engine (mpf context source) and the DTMF
detector (mpf_dtmf_detector.go), with theorems checking the
natural-language specification against this code.

Conventions of the embedding:
* Go `int64` values (capacity, count, slot indices) are modelled as `Int`;
  no arithmetic here can overflow 64 bits on reachable states.
* Go `uint8` counters (TXCount/RXCount) are modelled as `Nat` together with
  explicit mod-256 increment/decrement (`inc8`/`dec8`).
* Go slices indexed by `int64` are modelled as total functions out of `Nat`;
  every access in the source is preceded by the same bounds tests the Go
  runtime performs: a negative index is a runtime panic, modelled by the
  operation returning `none`.
* Pointer identity of `*Termination` is modelled by a numeric termination
  id; the per-termination mutable `slot` field lives in a map `Nat → Int`
  carried in the world state.  A termination's `audioStream` is identified
  with its termination id; its direction bitmask is given by an immutable
  environment `Nat → Option Nat` (`none` models a nil stream pointer).
-/

/-- Stream direction flag. Modelled from the spec: terminations expose
send/receive direction capability bits; the `Termination`/`AudioStream`
definitions are outside the provided sources. -/
def STREAM_DIRECTION_RECEIVE : Nat := 1

/-- Stream direction flag (send). Modelled from the spec. -/
def STREAM_DIRECTION_SEND : Nat := 2

/-- Item of the association matrix header (`HeaderItem` in the source).
The bound termination pointer becomes an optional termination id; the
`uint8` TX/RX counters become `Nat` values kept in `[0, 255]`. -/
structure HeaderItem where
  termination : Option Nat
  TXCount : Nat
  RXCount : Nat
deriving DecidableEq

/-- Media processing objects built by topology application.  Modelled from
the spec: `BridgeCreate` / `MultiplierCreate` / `MixerCreate` are outside
the provided sources; each constructor records the audio streams (stream =
termination id) wired together, which is all the context code passes in.
`multiplier`/`mixer` arrays are preallocated at counter size and filled
slot by slot, hence `Option Nat` entries (`none` = never-filled nil). -/
inductive TopologyObj where
  | bridge (source sink : Nat)
  | multiplier (source : Nat) (sinks : List (Option Nat))
  | mixer (sources : List (Option Nat)) (sink : Nat)
deriving DecidableEq

/-- Media processing context (`Context` in the source).  `Element` is the
identity of the factory ring entry created for this context. -/
structure Ctx where
  Element : Nat
  Capacity : Int
  Count : Int
  header : Nat → HeaderItem
  matrix : Nat → Nat → Nat
  mpfObjects : List TopologyObj

/-- World state: the context factory (`Link` ring as a list of
(element id, context id) pairs plus a fresh-element counter), the live
contexts, and the per-termination slot field. -/
structure World where
  nextElem : Nat
  link : List (Nat × Nat)
  ctxs : List Ctx
  slot : Nat → Int

/-- Empty factory world: no contexts, every termination unbound (slot -1). -/
def emptyWorld : World :=
  { nextElem := 0, link := [], ctxs := [], slot := fun _ => -1 }

/-- Mod-256 increment: Go `uint8` `x++`. -/
def inc8 (x : Nat) : Nat := (x + 1) % 256

/-- Mod-256 decrement: Go `uint8` `x--`. -/
def dec8 (x : Nat) : Nat := (x + 255) % 256

/-- Point update of a header array. -/
def hset (f : Nat → HeaderItem) (i : Nat) (v : HeaderItem) : Nat → HeaderItem :=
  fun k => if k = i then v else f k

/-- Point update of the association matrix. -/
def mset (m : Nat → Nat → Nat) (i j v : Nat) : Nat → Nat → Nat :=
  fun a b => if a = i then (if b = j then v else m a b) else m a b

/-- Go `header[i].TXCount++`. -/
def bumpTX (f : Nat → HeaderItem) (i : Nat) : Nat → HeaderItem :=
  hset f i { f i with TXCount := inc8 (f i).TXCount }

/-- Go `header[j].RXCount++`. -/
def bumpRX (f : Nat → HeaderItem) (j : Nat) : Nat → HeaderItem :=
  hset f j { f j with RXCount := inc8 (f j).RXCount }

/-- Go `header[i].TXCount--`. -/
def decTX (f : Nat → HeaderItem) (i : Nat) : Nat → HeaderItem :=
  hset f i { f i with TXCount := dec8 (f i).TXCount }

/-- Go `header[j].RXCount--`. -/
def decRX (f : Nat → HeaderItem) (j : Nat) : Nat → HeaderItem :=
  hset f j { f j with RXCount := dec8 (f j).RXCount }

/-- The `1 . 2` block of `ContextAssociationAdd` once its guards hold:
`matrix[i][j].On = 1; header[i].TXCount++; header[j].RXCount++`. -/
def edgeSet (c : Ctx) (i j : Nat) : Ctx :=
  { c with matrix := mset c.matrix i j 1, header := bumpRX (bumpTX c.header i) j }

/-- A clearing block shared by `ContextAssociationRemove`,
`ContextTerminationSubtract` and `ContextAssociationsReset`:
`matrix[i][j].On = 0; header[i].TXCount--; header[j].RXCount--`. -/
def edgeClear (c : Ctx) (i j : Nat) : Ctx :=
  { c with matrix := mset c.matrix i j 0, header := decRX (decTX c.header i) j }

/-- `StreamDirectionCompatibilityCheck` from the source: the source
termination's stream must have the receive bit and the sink termination's
stream the send bit; a nil stream fails the check. -/
def StreamDirectionCompatibilityCheck (env : Nat → Option Nat) (t1 t2 : Nat) : Bool :=
  match env t1, env t2 with
  | some d1, some d2 =>
      (d1 &&& STREAM_DIRECTION_RECEIVE == STREAM_DIRECTION_RECEIVE) &&
      (d2 &&& STREAM_DIRECTION_SEND == STREAM_DIRECTION_SEND)
  | _, _ => false

/-- `ContextCreate`: header all unbound with zero counters, matrix all off,
empty object array.  The Go constructor initialises every cell in a loop;
the function representation initialises them pointwise. -/
def ContextCreate (elem : Nat) (cap : Int) : Ctx :=
  { Element := elem, Capacity := cap, Count := 0,
    header := fun _ => ⟨none, 0, 0⟩, matrix := fun _ _ => 0, mpfObjects := [] }

/-- `ContextFactory.ContextCreate`: builds the context and pushes it onto
the factory's `Link` ring, storing the new ring element in the context. -/
def WorldContextCreate (w : World) (cap : Int) : World × Nat :=
  let cid := w.ctxs.length
  let c := ContextCreate w.nextElem cap
  ({ nextElem := w.nextElem + 1,
     link := w.link ++ [(w.nextElem, cid)],
     ctxs := w.ctxs ++ [c],
     slot := w.slot }, cid)

/-- The slot-scan of `ContextTerminationAdd`: first header slot whose
termination pointer is nil. -/
def firstFreeSlot (c : Ctx) : Option Nat :=
  (List.range c.Capacity.toNat).find? (fun i => (c.header i).termination == none)

/-- `ContextTerminationAdd`: scan for a free slot; if none, return false.
Otherwise, if `Count == 0`, push the context onto the factory ring again
(without updating `Element`), then bind the slot with zero counters, record
the slot index in the termination and increment `Count`.  `none` only for
an invalid context id. -/
def WorldTerminationAdd (w : World) (cid t : Nat) : Option (World × Bool) :=
  match w.ctxs.get? cid with
  | none => none
  | some c =>
    match firstFreeSlot c with
    | none => some (w, false)
    | some i =>
      let w1 := if c.Count = 0 then
          { w with nextElem := w.nextElem + 1, link := w.link ++ [(w.nextElem, cid)] }
        else w
      let c1 := { c with
        Count := c.Count + 1,
        header := hset c.header i ⟨some t, 0, 0⟩ }
      some ({ w1 with
        ctxs := w1.ctxs.set cid c1,
        slot := fun x => if x = t then (i : Int) else w1.slot x }, true)

/-- The `j`-loop of `ContextTerminationSubtract` over slot `i`: guarded by
`j < Capacity && k < Count`; note the source keeps occupied partner slots
(`termination != nil` ⇒ continue) and walks the slots whose termination is
nil, counting them against `Count`. -/
def ContextTerminationSubtractCore (c : Ctx) (i : Nat) : Ctx :=
  ((List.range c.Capacity.toNat).foldl (fun (acc : Ctx × Nat) j =>
      let cc := acc.1
      let k := acc.2
      if (k : Int) < cc.Count then
        if (cc.header j).termination ≠ none then acc
        else
          let cc1 := if cc.matrix i j > 0 then edgeClear cc i j else cc
          let cc2 := if cc1.matrix j i > 0 then edgeClear cc1 j i else cc1
          (cc2, k + 1)
      else acc) (c, 0)).1

/-- `ContextTerminationSubtract`: slot `i := termination.slot`; `i ≥
Capacity` fails with false; `header[i]` with a negative `i` is a runtime
panic (`none`); a slot bound to a different termination fails with false.
Otherwise run the clearing loop, unbind the slot (its counters are left as
the loop produced them), set the termination's slot to -1, decrement
`Count`, and when `Count ≤ 0` remove the context's stored ring element
from the factory list. -/
def WorldTerminationSubtract (w : World) (cid t : Nat) : Option (World × Bool) :=
  match w.ctxs.get? cid with
  | none => none
  | some c =>
    let i := w.slot t
    if c.Capacity ≤ i then some (w, false)
    else if i < 0 then none
    else
      let iN := i.toNat
      if (c.header iN).termination ≠ some t then some (w, false)
      else
        let c1 := ContextTerminationSubtractCore c iN
        let c2 := { c1 with
          Count := c1.Count - 1,
          header := hset c1.header iN ({ c1.header iN with termination := none }) }
        let w1 := { w with
          ctxs := w.ctxs.set cid c2,
          slot := fun x => if x = t then -1 else w.slot x }
        let w2 := if c2.Count ≤ 0 then
            { w1 with link := w1.link.filter (fun p => p.1 ≠ c2.Element) }
          else w1
        some (w2, true)

/-- `ContextAssociationAdd` on the context value: read both slots; `slot ≥
Capacity` is the error return; taking `&header[i]` with a negative slot is
a runtime panic (`none`); headers bound to different terminations are the
mismatch error.  Then each direction is considered independently: an off
edge whose direction-compatibility check passes is switched on with the
paired counter increments; the second block re-reads the matrix after the
first. -/
def ContextAssociationAdd (env : Nat → Option Nat) (slotm : Nat → Int) (c : Ctx)
    (t1 t2 : Nat) : Option (Ctx × Option String) :=
  let i := slotm t1
  let j := slotm t2
  if c.Capacity ≤ i ∨ c.Capacity ≤ j then some (c, some "slot >= context.Capacity")
  else if i < 0 ∨ j < 0 then none
  else
    let iN := i.toNat
    let jN := j.toNat
    if (c.header iN).termination ≠ some t1 ∨ (c.header jN).termination ≠ some t2 then
      some (c, some "no match Termination")
    else
      let c1 := if c.matrix iN jN = 0 ∧ StreamDirectionCompatibilityCheck env t1 t2 then
          edgeSet c iN jN else c
      let c2 := if c1.matrix jN iN = 0 ∧ StreamDirectionCompatibilityCheck env t2 t1 then
          edgeSet c1 jN iN else c1
      some (c2, none)

/-- `ContextAssociationRemove`: same guards as association add; each
direction's edge is cleared if on, with paired counter decrements. -/
def ContextAssociationRemove (slotm : Nat → Int) (c : Ctx)
    (t1 t2 : Nat) : Option (Ctx × Option String) :=
  let i := slotm t1
  let j := slotm t2
  if c.Capacity ≤ i ∨ c.Capacity ≤ j then some (c, some "slot >= context.Capacity")
  else if i < 0 ∨ j < 0 then none
  else
    let iN := i.toNat
    let jN := j.toNat
    if (c.header iN).termination ≠ some t1 ∨ (c.header jN).termination ≠ some t2 then
      some (c, some "no match Termination")
    else
      let c1 := if c.matrix iN jN > 0 then edgeClear c iN jN else c
      let c2 := if c1.matrix jN iN > 0 then edgeClear c1 jN iN else c1
      some (c2, none)

/-- World wrapper for `ContextAssociationAdd` (environment `env` carries
each termination's stream direction). -/
def WorldAssociationAdd (env : Nat → Option Nat) (w : World) (cid t1 t2 : Nat) :
    Option (World × Option String) :=
  match w.ctxs.get? cid with
  | none => none
  | some c =>
    match ContextAssociationAdd env w.slot c t1 t2 with
    | none => none
    | some (c', r) => some ({ w with ctxs := w.ctxs.set cid c' }, r)

/-- World wrapper for `ContextAssociationRemove`. -/
def WorldAssociationRemove (w : World) (cid t1 t2 : Nat) :
    Option (World × Option String) :=
  match w.ctxs.get? cid with
  | none => none
  | some c =>
    match ContextAssociationRemove w.slot c t1 t2 with
    | none => none
    | some (c', r) => some ({ w with ctxs := w.ctxs.set cid c' }, r)

/-- `ContextDestroy`: walk every slot of the context, and for each bound
termination call `ContextTerminationSubtract` on it.  The per-termination
`Termination.TerminationSubtract` hook is modelled from the spec as a
state-free call that never fails (its definition is outside the provided
sources), so the early error return of the Go loop never triggers; a panic
(`none`) still propagates. -/
def WorldContextDestroy (w : World) (cid : Nat) : Option World :=
  match w.ctxs.get? cid with
  | none => none
  | some c =>
    (List.range c.Capacity.toNat).foldl (fun acc i =>
      match acc with
      | none => none
      | some w' =>
        match w'.ctxs.get? cid with
        | none => none
        | some c' =>
          match (c'.header i).termination with
          | none => some w'
          | some t => (WorldTerminationSubtract w' cid t).map (·.1)) (some w)

/-- The reset loop of `ContextAssociationsReset`: walk active slots while
`k < Count`, skipping slots with both counters zero, and clear both
directions of every pair `(i, j)` with `j ≥ i` whose partner is bound. -/
def ContextAssociationsResetCore (c : Ctx) : Ctx :=
  let capN := c.Capacity.toNat
  ((List.range capN).foldl (fun (acc : Ctx × Nat) i =>
      let cc := acc.1
      let k := acc.2
      if (k : Int) < cc.Count then
        if (cc.header i).termination = none then acc
        else if (cc.header i).TXCount = 0 ∧ (cc.header i).RXCount = 0 then (cc, k + 1)
        else
          let cc2 := (List.range' i (capN - i)).foldl (fun c2 j =>
              if (c2.header j).termination = none then c2
              else
                let c3 := if c2.matrix i j > 0 then edgeClear c2 i j else c2
                if c3.matrix j i > 0 then edgeClear c3 j i else c3) cc
          (cc2, k + 1)
      else acc) (c, 0)).1

/-- `ContextAssociationsReset`: the source first calls `ContextDestroy` on
the whole context (its own comment says "destroy existing topology"), then
runs the reset loop. -/
def WorldAssociationsReset (w : World) (cid : Nat) : Option (World × Option String) :=
  match WorldContextDestroy w cid with
  | none => none
  | some w1 =>
    match w1.ctxs.get? cid with
    | none => none
    | some c =>
      some ({ w1 with ctxs := w1.ctxs.set cid (ContextAssociationsResetCore c) }, none)

/-- Association-matrix operations for claim sequences (`ContextAssociationAdd`
or `ContextAssociationRemove` with given termination arguments). -/
inductive AssocOp where
  | add (t1 t2 : Nat)
  | remove (t1 t2 : Nat)
deriving DecidableEq

/-- Apply one association operation at the context level; an error return
leaves the context as the operation left it (the source mutates nothing on
the error paths), and a panic ends the run with the current state. -/
def applyAssocOp (env : Nat → Option Nat) (slotm : Nat → Int) (c : Ctx) :
    AssocOp → Ctx
  | .add t1 t2 =>
    match ContextAssociationAdd env slotm c t1 t2 with
    | some (c', _) => c'
    | none => c
  | .remove t1 t2 =>
    match ContextAssociationRemove slotm c t1 t2 with
    | some (c', _) => c'
    | none => c

/-- Apply a finite sequence of association operations. -/
def applyAssocOps (env : Nat → Option Nat) (slotm : Nat → Int) (c : Ctx)
    (ops : List AssocOp) : Ctx :=
  ops.foldl (applyAssocOp env slotm) c

/-- Number of set outgoing edges of slot `k` in the matrix. -/
def TXedges (c : Ctx) (k : Nat) : Nat :=
  ∑ j ∈ Finset.range c.Capacity.toNat, if c.matrix k j ≠ 0 then 1 else 0

/-- Number of set incoming edges of slot `k` in the matrix. -/
def RXedges (c : Ctx) (k : Nat) : Nat :=
  ∑ j ∈ Finset.range c.Capacity.toNat, if c.matrix j k ≠ 0 then 1 else 0

/-- Counter consistency up to the `uint8` width: every slot's stored
TXCount/RXCount equals its exact edge count reduced mod 256. -/
def CountersMod (c : Ctx) : Prop :=
  ∀ k, k < c.Capacity.toNat →
    (c.header k).TXCount = TXedges c k % 256 ∧ (c.header k).RXCount = RXedges c k % 256

instance (c : Ctx) : Decidable (CountersMod c) := by
  unfold CountersMod; infer_instance

/-- `ContextTopologyDestroy`: destroy each object (the per-object
`ObjectDestroy` hook is outside the provided sources and touches no context
state) and clear the object array. -/
def ContextTopologyDestroy (c : Ctx) : Ctx :=
  { c with mpfObjects := [] }

/-- The `j`-scan of `ContextBridgeCreate` over slot `i`: first bound slot
`j` with `matrix[i][j]` on decides the result — a target with `RXCount > 1`
makes the bridge defer to the future mixer (`nil` object, `nil` error); a
target with `RXCount ≤ 1` and both terminations non-nil yields the bridge
object wired source-stream to sink-stream. -/
def bridgeScan (c : Ctx) (i : Nat) : List Nat → Option TopologyObj
  | [] => none
  | j :: rest =>
    let h2 := c.header j
    if h2.termination = none then bridgeScan c i rest
    else if c.matrix i j = 0 then bridgeScan c i rest
    else if h2.RXCount > 1 then none
    else
      match (c.header i).termination, h2.termination with
      | some t1, some t2 => some (.bridge t1 t2)
      | _, _ => bridgeScan c i rest

/-- `ContextBridgeCreate` (error return is always nil in the source). -/
def ContextBridgeCreate (c : Ctx) (i : Nat) : Option TopologyObj :=
  bridgeScan c i (List.range c.Capacity.toNat)

/-- `ContextMultiplierCreate`: sink array preallocated at `TXCount`, filled
with the streams of the first `TXCount` bound slots whose edge from `i` is
on, in ascending slot order.  The source dereferences `header[i].termination`
unconditionally; topology application only calls this on bound slots, and
the unreachable nil case is mapped to `none`. -/
def ContextMultiplierCreate (c : Ctx) (i : Nat) : Option TopologyObj :=
  let n := (c.header i).TXCount
  let arr := ((List.range c.Capacity.toNat).foldl (fun (acc : List (Option Nat) × Nat) j =>
      if acc.2 < n then
        match (c.header j).termination with
        | none => acc
        | some t2 => if c.matrix i j = 0 then acc else (acc.1.set acc.2 (some t2), acc.2 + 1)
      else acc) (List.replicate n none, 0)).1
  match (c.header i).termination with
  | some t1 => some (.multiplier t1 arr)
  | none => none

/-- `ContextMixerCreate`: source array preallocated at `RXCount`, filled
with the streams of the first `RXCount` bound slots whose edge into `j` is
on, in ascending slot order. -/
def ContextMixerCreate (c : Ctx) (j : Nat) : Option TopologyObj :=
  let n := (c.header j).RXCount
  let arr := ((List.range c.Capacity.toNat).foldl (fun (acc : List (Option Nat) × Nat) i =>
      if acc.2 < n then
        match (c.header i).termination with
        | none => acc
        | some t2 => if c.matrix i j = 0 then acc else (acc.1.set acc.2 (some t2), acc.2 + 1)
      else acc) (List.replicate n none, 0)).1
  match (c.header j).termination with
  | some t1 => some (.mixer arr t1)
  | none => none

/-- `ContextObjectAdd`: a nil object is the error "object is nil"; a real
object is pushed onto the context's object array. -/
def ContextObjectAdd (c : Ctx) (obj : Option TopologyObj) : Ctx × Option String :=
  match obj with
  | none => (c, some "object is nil")
  | some o => ({ c with mpfObjects := c.mpfObjects ++ [o] }, none)

/-- `ContextTopologyApply`: destroy the existing topology, then walk active
slots while `k < Count`.  For a bound slot with `TXCount > 0`, create a
bridge (if `TXCount == 1`) or a multiplier and push it through
`ContextObjectAdd`, returning that error if it fails; independently, for
`RXCount > 1`, create and push a mixer.  The first error returns
immediately, skipping all remaining slots. -/
def ContextTopologyApply (c : Ctx) : Ctx × Option String :=
  let c0 := ContextTopologyDestroy c
  let r := (List.range c.Capacity.toNat).foldl
    (fun (acc : Ctx × Nat × Option String) i =>
      let cc := acc.1
      let k := acc.2.1
      match acc.2.2 with
      | some _ => acc
      | none =>
        if (k : Int) < cc.Count then
          let h := cc.header i
          match h.termination with
          | none => acc
          | some _ =>
            let step1 : Ctx × Option String :=
              if h.TXCount > 0 then
                let obj := if h.TXCount = 1 then ContextBridgeCreate cc i
                           else ContextMultiplierCreate cc i
                ContextObjectAdd cc obj
              else (cc, none)
            match step1.2 with
            | some e => (step1.1, k + 1, some e)
            | none =>
              if h.RXCount > 1 then
                let r2 := ContextObjectAdd step1.1 (ContextMixerCreate step1.1 i)
                (r2.1, k + 1, r2.2)
              else (step1.1, k + 1, none)
        else acc) (c0, 0, none)
  (r.1, r.2.2)

/-- One call of a topology object's process step: `none` models a nil
`Process` member (the object is skipped), `some none` a successful call and
`some (some e)` a failing call.  Modelled from the spec: the bridge,
multiplier and mixer process implementations are outside the provided
sources. -/
def ProcessStep : Type := TopologyObj → Option (Option String)

/-- The loop of `ContextProcess`: walk the object list in order; invoke
each non-nil process step; a step returning an error makes the function
return that error at once.  The result counts how many process steps were
invoked, paired with the returned error. -/
def processObjs (proc : ProcessStep) : List TopologyObj → Nat × Option String
  | [] => (0, none)
  | o :: rest =>
    match proc o with
    | none => processObjs proc rest
    | some none =>
      let r := processObjs proc rest
      (r.1 + 1, r.2)
    | some (some e) => (1, some e)

/-- `ContextProcess` (one scheduling tick of this context). -/
def ContextProcess (proc : ProcessStep) (c : Ctx) : Nat × Option String :=
  processObjs proc c.mpfObjects

/-- World-level operation alphabet used by the concrete claim scenarios. -/
inductive WOp where
  | createCtx (cap : Int)
  | termAdd (cid t : Nat)
  | termSub (cid t : Nat)
  | assocAdd (cid t1 t2 : Nat)
  | assocRemove (cid t1 t2 : Nat)
  | assocReset (cid : Nat)

/-- Apply one world-level operation; `none` is a Go runtime panic. -/
def applyWOp (env : Nat → Option Nat) (w : World) : WOp → Option World
  | .createCtx cap => some (WorldContextCreate w cap).1
  | .termAdd cid t => (WorldTerminationAdd w cid t).map (·.1)
  | .termSub cid t => (WorldTerminationSubtract w cid t).map (·.1)
  | .assocAdd cid t1 t2 => (WorldAssociationAdd env w cid t1 t2).map (·.1)
  | .assocRemove cid t1 t2 => (WorldAssociationRemove w cid t1 t2).map (·.1)
  | .assocReset cid => (WorldAssociationsReset w cid).map (·.1)

/-- Run a scenario from a world state; a panic aborts the run. -/
def runW (env : Nat → Option Nat) (w0 : World) (ops : List WOp) : Option World :=
  ops.foldl (fun acc op => acc.bind (fun w => applyWOp env w op)) (some w0)

/-- Band flag: detect tones in-band. -/
def MPF_DTMF_DETECTOR_INBAND : Nat := 1

/-- Band flag: detect named events out-of-band. -/
def MPF_DTMF_DETECTOR_OUTBAND : Nat := 2

/-- Max detected DTMF digits buffer length. -/
def MPF_DTMFDET_BUFFER_LEN : Nat := 32

/-- Window length in samples (at 8kHz) for the Goertzel frequency analysis. -/
def GOERTZEL_SAMPLES_8K : Int := 102

/-- Goertzel frequency detector state.  The Go fields are `float64`; they
are modelled as exact rationals, which matches every operation the code
performs symbolically (the claims settled here do not depend on float
rounding). -/
structure GoertzelState where
  Coef : ℚ
  S1 : ℚ
  S2 : ℚ

/-- Codec descriptor as used by the detector (sampling rate).  Modelled
from the spec: the `CodecDescriptor` definition is outside the provided
sources. -/
structure CodecDescriptor where
  SamplingRate : Int

/-- The slice of `AudioStream` the detector reads.  Modelled from the spec:
the full `AudioStream` definition is outside the provided sources; `none`
models a nil `TXDescriptor`. -/
structure AudioStream where
  TXDescriptor : Option CodecDescriptor

/-- Frame passed to the detector.  Only its audio payload would matter to
the (stub) frame path; the payload is the list of int16 sample values. -/
structure Frame where
  samples : List Int

/-- `DtmfDetector`: the 33-byte digit buffer becomes a function out of
`Nat` (cells 0..32 are the ones the code touches); `int64` counters become
`Int`; the 8 resonators become a function out of `Nat` (cells 0..7). -/
structure DtmfDetector where
  Band : Nat
  buf : Nat → Nat
  Digits : Int
  LostDigits : Int
  energies : Nat → GoertzelState
  TotalEnergy : ℚ
  WSamples : Int
  NSamples : Int
  last1 : Nat
  last2 : Nat
  curr : Nat

/-- Point update of the digit buffer. -/
def bset (f : Nat → Nat) (i v : Nat) : Nat → Nat :=
  fun k => if k = i then v else f k

/-- `DtmfDetectorCreateEx`: clear the in-band bit when the stream has no
TX descriptor; fail (nil) when the effective band is empty; otherwise
zero-initialise the detector and, when in-band is set, install the
resonator coefficients and the window length scaled from 102 samples at
8 kHz.  `cosCoef i` abstracts the float64 value `cos(2π·DtmfFreqs[i]/rate)`
computed by the source (its numeric value decides nothing proved here);
the stored coefficient is twice it, as in the source. -/
def DtmfDetectorCreateEx (stream : AudioStream) (band : Nat) (cosCoef : Nat → ℚ) :
    Option DtmfDetector :=
  let flgBand := match stream.TXDescriptor with
    | none => band &&& MPF_DTMF_DETECTOR_OUTBAND
    | some _ => band
  if flgBand = 0 then none
  else some
    { Band := flgBand,
      buf := fun _ => 0,
      Digits := 0,
      LostDigits := 0,
      energies := if flgBand &&& MPF_DTMF_DETECTOR_INBAND ≠ 0 then
          fun i => ⟨2 * cosCoef i, 0, 0⟩
        else fun _ => ⟨0, 0, 0⟩,
      TotalEnergy := 0,
      WSamples := if flgBand &&& MPF_DTMF_DETECTOR_INBAND ≠ 0 then
          GOERTZEL_SAMPLES_8K * ((stream.TXDescriptor.map (·.SamplingRate)).getD 0 / 8000)
        else 0,
      NSamples := 0, last1 := 0, last2 := 0, curr := 0 }

/-- `DtmfDetectorDigitGet`: read `buf[0]`; when nonzero, shift the first 32
cells left by one (cell 32 is not rewritten by Go's `copy`) and decrement
the digit count.  Returns the digit (0 = empty sentinel) and the new
state. -/
def DtmfDetectorDigitGet (d : DtmfDetector) : Nat × DtmfDetector :=
  let digit := d.buf 0
  if digit > 0 then
    (digit, { d with
      buf := fun i => if i < 32 then d.buf (i + 1) else d.buf i,
      Digits := d.Digits - 1 })
  else (digit, d)

/-- `DtmfDetectorDigitsLost`. -/
def DtmfDetectorDigitsLost (d : DtmfDetector) : Int := d.LostDigits

/-- `DtmfDetectorReset`: clear `buf[0]`, both counters, the debounce state,
the sample counter and the total energy; band and coefficients stay. -/
def DtmfDetectorReset (d : DtmfDetector) : DtmfDetector :=
  { d with
    buf := bset d.buf 0 0,
    LostDigits := 0, Digits := 0, curr := 0, last1 := 0, last2 := 0,
    NSamples := 0, TotalEnergy := 0 }

/-- `DtmfDetectorAddDigit`: a zero digit is ignored; with room, store the
digit at index `Digits`, increment `Digits` and null-terminate; with a full
buffer, count the digit as lost. -/
def DtmfDetectorAddDigit (d : DtmfDetector) (digit : Nat) : DtmfDetector :=
  if digit = 0 then d
  else if d.Digits < (MPF_DTMFDET_BUFFER_LEN : Int) then
    { d with
      buf := bset (bset d.buf d.Digits.toNat digit) (d.Digits.toNat + 1) 0,
      Digits := d.Digits + 1 }
  else { d with LostDigits := d.LostDigits + 1 }

/-- Go `int16` multiplication: the mathematical product wrapped to
[-32768, 32767]. -/
def int16mul (a b : Int) : Int := (a * b + 32768) % 65536 - 32768

/-- `GoertzelSample`: rotate each resonator's delay taps through
`s2 = sample + coef·s1 − s0`, and add to `TotalEnergy` the value of the Go
expression `float64(sample * sample)` — an `int16` product, which wraps. -/
def GoertzelSample (d : DtmfDetector) (sample : Int) : DtmfDetector :=
  { d with
    energies := fun i =>
      let g := d.energies i
      { Coef := g.Coef, S1 := g.S2, S2 := (sample : ℚ) + g.Coef * g.S2 - g.S1 },
    TotalEnergy := d.TotalEnergy + (int16mul sample sample : ℚ) }

/-- `GoertzelEnergiesDigit`: the source's body is empty — no state change. -/
def GoertzelEnergiesDigit (d : DtmfDetector) : DtmfDetector := d

/-- `DtmfDetectorGetFrame`: the source's body is empty — the frame is
ignored and no state changes. -/
def DtmfDetectorGetFrame (d : DtmfDetector) (_frame : Frame) : DtmfDetector := d

/-- The 8 kHz stream used by the detector claims. -/
def stream8k : AudioStream := { TXDescriptor := some { SamplingRate := 8000 } }

/-- Fresh in-band detector on an 8 kHz stream (coefficient oracle
instantiated at 0: the claims settled on it do not depend on it). -/
def det0 : DtmfDetector :=
  (DtmfDetectorCreateEx stream8k MPF_DTMF_DETECTOR_INBAND fun _ => 0).getD
    { Band := 0, buf := fun _ => 0, Digits := 0, LostDigits := 0,
      energies := fun _ => ⟨0, 0, 0⟩, TotalEnergy := 0, WSamples := 0,
      NSamples := 0, last1 := 0, last2 := 0, curr := 0 }

/-- Detector operations other than `DtmfDetectorReset`, for the lost-digit
monotonicity statement. -/
inductive DetOp where
  | add (digit : Nat)
  | get
  | frame (f : Frame)
  | sample (s : Int)

/-- Apply one non-reset detector operation. -/
def applyDetOp (d : DtmfDetector) : DetOp → DtmfDetector
  | .add digit => DtmfDetectorAddDigit d digit
  | .get => (DtmfDetectorDigitGet d).2
  | .frame f => DtmfDetectorGetFrame d f
  | .sample s => GoertzelSample d s

/-- Pop `n` digits in order. -/
def popList (d : DtmfDetector) : Nat → List Nat
  | 0 => []
  | n + 1 =>
    let r := DtmfDetectorDigitGet d
    r.1 :: popList r.2 n

/-- Direction environment giving every termination a duplex stream. -/
def env3 : Nat → Option Nat := fun _ => some 3

/-- C1 scenario: bind terminations 10 and 11 into a fresh 2-slot context,
associate them (both directions are compatible), then subtract 11. -/
def runC1 : Option World :=
  runW env3 emptyWorld
    [.createCtx 2, .termAdd 0 10, .termAdd 0 11, .assocAdd 0 10 11, .termSub 0 11]

/-- C1: `ContextTerminationSubtract` does not restore the pre-bind state.
Binding 10 and 11 and associating them gives matrix edges (0,1) and (1,0)
with all four counters 1; the pre-bind state of termination 11 has no
edges and all counters 0.  After subtracting 11, the slot is unbound and
the count is back to 1, but both matrix edges are still on and all four
counters still read 1: the subtract loop's `termination != nil ⇒ continue`
test skips every occupied partner slot, so nothing is cleared. -/
theorem C1_termination_subtract_leaves_stale_state :
  (runC1.map fun w => (w.ctxs.get? 0).map fun c =>
    (c.matrix 0 1, c.matrix 1 0, (c.header 1).termination, c.Count))
    = some (some (1, 1, none, 1)) ∧
  (runC1.map fun w => (w.ctxs.get? 0).map fun c =>
    ((c.header 0).TXCount, (c.header 0).RXCount, (c.header 1).TXCount, (c.header 1).RXCount))
    = some (some (1, 1, 1, 1)) := by
  decide

/-- C2: `ContextAssociationsReset` destroys the whole context, not just the
topology.  With terminations 10 and 11 bound and associated, the reset's
opening `ContextDestroy` call subtracts every bound termination, so
afterwards the count is 0 and both slots are unbound — the claim expects
both terminations still bound and the count unchanged at 2. -/
theorem C2_associations_reset_unbinds_terminations :
  (runW env3 emptyWorld
    [.createCtx 2, .termAdd 0 10, .termAdd 0 11, .assocAdd 0 10 11, .assocReset 0]).map
      (fun w => (w.ctxs.get? 0).map (fun c =>
        (c.Count, (c.header 0).termination, (c.header 1).termination)))
  = some (some (0, none, none)) := by
  decide

/-- Direction environment for the C3 scenario: termination 23 is
send-capable (pure sink), terminations 20-22 receive-capable (pure
sources), so exactly the three edges into 23 are created. -/
def envC3 : Nat → Option Nat := fun t => if t == 23 then some 2 else some 1

/-- C3 scenario: slots 0,1,2 each with exactly one outgoing edge, all
targeting slot 3 (RXCount 3). -/
def runC3 : Option World :=
  runW envC3 emptyWorld
    [.createCtx 4, .termAdd 0 20, .termAdd 0 21, .termAdd 0 22, .termAdd 0 23,
     .assocAdd 0 20 23, .assocAdd 0 21 23, .assocAdd 0 22 23]

/-- C3: on a matrix where slot 3 has RXCount 3 fed by slots 0,1,2 (each
with TXCount 1), `ContextTopologyApply` does not succeed with a single
Mixer.  The first source slot's bridge attempt sees the target's
`RXCount > 1` and returns a nil object ("mixer will be created instead"),
but `ContextObjectAdd` turns that nil into the error "object is nil",
which aborts the whole application before any Mixer is built: the call
returns that error and the topology-object list stays empty. -/
theorem C3_topology_apply_errors_instead_of_mixer :
  (runC3.map fun w => (w.ctxs.get? 0).map fun c =>
    ((c.header 0).TXCount, (c.header 1).TXCount, (c.header 2).TXCount, (c.header 3).RXCount))
    = some (some (1, 1, 1, 3)) ∧
  (runC3.map fun w => (w.ctxs.get? 0).map fun c =>
    ((ContextTopologyApply c).2, (ContextTopologyApply c).1.mpfObjects))
    = some (some (some "object is nil", [])) := by
  decide

/-- C5: operating on a termination that is not bound to the context (slot
-1, e.g. already unbound) makes `ContextTerminationSubtract`,
`ContextAssociationAdd` and `ContextAssociationRemove` index
`header[-1]` — a Go runtime panic (`none` here), not the claimed
state-mismatch error return: the `slot >= Capacity` guard passes a
negative slot straight through to the array access. -/
theorem C5_negative_slot_panics :
  (runW env3 emptyWorld [.createCtx 2, .termAdd 0 30]).map (fun w =>
    ((WorldTerminationSubtract w 0 99).isNone,
     (WorldAssociationAdd env3 w 0 99 30).isNone,
     (WorldAssociationAdd env3 w 0 30 99).isNone,
     (WorldAssociationRemove w 0 99 30).isNone))
  = some (true, true, true, true) := by
  decide

/-- C7: a context can sit in the factory's collection twice.
`ContextFactory.ContextCreate` pushes the fresh context onto the ring, and
the first `ContextTerminationAdd` (count 0 → 1) pushes it again, so after
one create and one bind the context id occurs twice in the ring. -/
theorem C7_context_linked_twice :
  (runW env3 emptyWorld [.createCtx 2, .termAdd 0 40]).map (fun w =>
    w.link.countP (fun p => p.2 == 0))
  = some 2 := by
  decide

/-- Process-step assignment used by the C4 counterexample: the first
object fails, the second succeeds. -/
def procC4 : ProcessStep := fun o => match o with
  | .bridge 0 1 => some (some "boom")
  | _ => some none

/-- Two-object context for the C4 counterexample. -/
def ctxC4 : Ctx := { ContextCreate 0 2 with mpfObjects := [.bridge 0 1, .bridge 2 3] }

/-- C4 counterexample: a context with 2 topology objects whose first
process step fails.  `ContextProcess` invokes only 1 process step — the
error return aborts the loop — refuting the claim that all n objects are
processed despite an earlier failure. -/
theorem C4_counterexample_process_stops_after_error :
  ContextProcess procC4 ctxC4 = (1, some "boom") ∧ ctxC4.mpfObjects.length = 2 := by
  decide

/-- Behaviour of the process loop on a list whose first failing step is
`o`: every earlier present step is invoked, then the failure is returned. -/
theorem processObjs_first_error (proc : ProcessStep) (pre post : List TopologyObj)
    (o : TopologyObj) (e : String)
    (hpre : ∀ p ∈ pre, ∀ s : String, proc p ≠ some (some s))
    (ho : proc o = some (some e)) :
    processObjs proc (pre ++ o :: post) =
      (pre.countP (fun p => (proc p).isSome) + 1, some e) := by
  induction pre with
  | nil => simp [processObjs, ho]
  | cons p rest ih =>
    have hp := hpre p (by simp)
    have hrest : ∀ q ∈ rest, ∀ s : String, proc q ≠ some (some s) :=
      fun q hq s => hpre q (by simp [hq]) s
    have hr := ih hrest
    rcases hstep : proc p with _ | r
    · simpa [processObjs, hstep, List.countP_cons] using hr
    · rcases r with _ | s
      · simp [processObjs, hstep, hr, List.countP_cons]
      · exact absurd hstep (hp s)

/-- Behaviour of the process loop on a list with no failing step: every
present step is invoked exactly once and no error is returned. -/
theorem processObjs_no_error (proc : ProcessStep) (l : List TopologyObj)
    (h : ∀ p ∈ l, ∀ s : String, proc p ≠ some (some s)) :
    processObjs proc l = (l.countP (fun p => (proc p).isSome), none) := by
  induction l with
  | nil => simp [processObjs]
  | cons p rest ih =>
    have hp := h p (by simp)
    have hrest : ∀ q ∈ rest, ∀ s : String, proc q ≠ some (some s) :=
      fun q hq s => h q (by simp [hq]) s
    have hr := ih hrest
    rcases hstep : proc p with _ | r
    · simpa [processObjs, hstep, List.countP_cons] using hr
    · rcases r with _ | s
      · simp [processObjs, hstep, hr, List.countP_cons]
      · exact absurd hstep (hp s)

/-- C4 (amended): one `ContextProcess` call invokes process steps in list
order, skipping objects with a nil step, but stops at the first step that
returns an error: exactly the objects up to and including the first failing
one are invoked (`countP` of the steps present in the prefix, plus the
failing one) and that first error is returned, the objects after it not
being processed in this tick; when no step fails, every object with a step
is invoked exactly once and no error is returned. -/
theorem C4_process_stops_at_first_error (proc : ProcessStep) (c : Ctx) :
    (∀ (pre post : List TopologyObj) (o : TopologyObj) (e : String),
      c.mpfObjects = pre ++ o :: post →
      (∀ p ∈ pre, ∀ s : String, proc p ≠ some (some s)) →
      proc o = some (some e) →
      ContextProcess proc c = (pre.countP (fun p => (proc p).isSome) + 1, some e)) ∧
    ((∀ p ∈ c.mpfObjects, ∀ s : String, proc p ≠ some (some s)) →
      ContextProcess proc c = (c.mpfObjects.countP (fun p => (proc p).isSome), none)) := by
  constructor
  · intro pre post o e hobjs hpre ho
    unfold ContextProcess
    rw [hobjs]
    exact processObjs_first_error proc pre post o e hpre ho
  · intro hok
    unfold ContextProcess
    exact processObjs_no_error proc c.mpfObjects hok

/-- Context for the C4 witness, failure part: successful object first,
failing second. -/
def ctxC4w : Ctx := { ContextCreate 0 2 with mpfObjects := [.bridge 2 3, .bridge 0 1] }

/-- Context for the C4 witness, no-failure part: two succeeding objects. -/
def ctxC4s : Ctx := { ContextCreate 0 2 with mpfObjects := [.bridge 2 3, .bridge 4 5] }

/-- Witness for C4: on a 2-object list whose second object fails, the tick
invokes both steps and returns the error; on a 2-object list with no
failing step, both steps are invoked and no error is returned. -/
theorem C4_process_stops_at_first_error_witness :
    ContextProcess procC4 ctxC4w = (2, some "boom") ∧
    ContextProcess procC4 ctxC4s = (2, none) := by
  constructor
  · have h := (C4_process_stops_at_first_error procC4 ctxC4w).1 [.bridge 2 3] []
      (.bridge 0 1) "boom" rfl (by intro p hp s; simp at hp; subst hp; simp [procC4]) rfl
    simpa using h
  · have h := (C4_process_stops_at_first_error procC4 ctxC4s).2 (by
      intro p hp s
      simp [ctxC4s] at hp
      rcases hp with hp | hp <;> subst hp <;> simp [procC4])
    exact h.trans (by decide)

/-- C8: the in-band frame path of the detector is an empty stub.  For a
detector created in-band on the 8 kHz stream, feeding any frame sequence
whatsoever — tone windows included — leaves the digit buffer empty:
`DtmfDetectorDigitGet` returns the empty sentinel 0 and the digit count is
0, contradicting the claimed detection of digit '1'. -/
theorem C8_stub_frame_path_yields_no_digit (cosCoef : Nat → ℚ) (frames : List Frame) :
    (DtmfDetectorCreateEx stream8k MPF_DTMF_DETECTOR_INBAND cosCoef).map (fun d =>
      ((DtmfDetectorDigitGet (frames.foldl DtmfDetectorGetFrame d)).1,
       (frames.foldl DtmfDetectorGetFrame d).Digits)) = some (0, 0) := by
  have hfold : ∀ d : DtmfDetector, frames.foldl DtmfDetectorGetFrame d = d := by
    intro d
    induction frames with
    | nil => rfl
    | cons f rest ih => simpa [DtmfDetectorGetFrame] using ih
  simp [DtmfDetectorCreateEx, stream8k, MPF_DTMF_DETECTOR_INBAND, hfold,
    DtmfDetectorDigitGet]

/-- C9: `GoertzelSample` rotates the delay taps by the claimed recurrence,
but the `TotalEnergy` accumulation adds `float64(sample * sample)` — an
`int16` product that wraps.  At sample 256 the increment is 0 (while
256² = 65536), and at sample 200 it is −25536 (while 200² = 40000): the
total energy does not increase by the mathematical square. -/
theorem C9_goertzel_energy_int16_overflow :
    ((GoertzelSample det0 256).energies 0).S2 =
      256 + (det0.energies 0).Coef * (det0.energies 0).S2 - (det0.energies 0).S1 ∧
    ((GoertzelSample det0 256).energies 0).S1 = (det0.energies 0).S2 ∧
    (GoertzelSample det0 256).TotalEnergy = det0.TotalEnergy + 0 ∧
    (GoertzelSample det0 200).TotalEnergy = det0.TotalEnergy + (-25536) ∧
    (256 : ℚ) * 256 = 65536 ∧ (200 : ℚ) * 200 = 40000 := by
  refine ⟨rfl, rfl, ?_, ?_, by norm_num, by norm_num⟩
  · show det0.TotalEnergy + ((int16mul 256 256 : ℤ) : ℚ) = det0.TotalEnergy + 0
    norm_num [int16mul]
  · show det0.TotalEnergy + ((int16mul 200 200 : ℤ) : ℚ) = det0.TotalEnergy + (-25536)
    norm_num [int16mul]

/-- Extensionality for the context record. -/
theorem Ctx_ext {a b : Ctx} (h1 : a.Element = b.Element) (h2 : a.Capacity = b.Capacity)
    (h3 : a.Count = b.Count) (h4 : a.header = b.header) (h5 : a.matrix = b.matrix)
    (h6 : a.mpfObjects = b.mpfObjects) : a = b := by
  cases a; cases b; simp_all

theorem capacity_edgeSet (c : Ctx) (i j : Nat) : (edgeSet c i j).Capacity = c.Capacity := rfl

theorem capacity_edgeClear (c : Ctx) (i j : Nat) : (edgeClear c i j).Capacity = c.Capacity := rfl

theorem bumpTX_TXCount (f : Nat → HeaderItem) (i k : Nat) :
    ((bumpTX f i) k).TXCount = if k = i then inc8 (f i).TXCount else (f k).TXCount := by
  by_cases h : k = i <;> simp [bumpTX, hset, h]

theorem bumpTX_RXCount (f : Nat → HeaderItem) (i k : Nat) :
    ((bumpTX f i) k).RXCount = (f k).RXCount := by
  by_cases h : k = i <;> simp [bumpTX, hset, h]

theorem bumpRX_RXCount (f : Nat → HeaderItem) (j k : Nat) :
    ((bumpRX f j) k).RXCount = if k = j then inc8 (f j).RXCount else (f k).RXCount := by
  by_cases h : k = j <;> simp [bumpRX, hset, h]

theorem bumpRX_TXCount (f : Nat → HeaderItem) (j k : Nat) :
    ((bumpRX f j) k).TXCount = (f k).TXCount := by
  by_cases h : k = j <;> simp [bumpRX, hset, h]

theorem decTX_TXCount (f : Nat → HeaderItem) (i k : Nat) :
    ((decTX f i) k).TXCount = if k = i then dec8 (f i).TXCount else (f k).TXCount := by
  by_cases h : k = i <;> simp [decTX, hset, h]

theorem decTX_RXCount (f : Nat → HeaderItem) (i k : Nat) :
    ((decTX f i) k).RXCount = (f k).RXCount := by
  by_cases h : k = i <;> simp [decTX, hset, h]

theorem decRX_RXCount (f : Nat → HeaderItem) (j k : Nat) :
    ((decRX f j) k).RXCount = if k = j then dec8 (f j).RXCount else (f k).RXCount := by
  by_cases h : k = j <;> simp [decRX, hset, h]

theorem decRX_TXCount (f : Nat → HeaderItem) (j k : Nat) :
    ((decRX f j) k).TXCount = (f k).TXCount := by
  by_cases h : k = j <;> simp [decRX, hset, h]

theorem mset_row_other (m : Nat → Nat → Nat) (i j v k x : Nat) (h : k ≠ i) :
    mset m i j v k x = m k x := by
  simp [mset, h]

theorem mset_col_other (m : Nat → Nat → Nat) (i j v x k : Nat) (h : k ≠ j) :
    mset m i j v x k = m x k := by
  by_cases hx : x = i <;> simp [mset, hx, h]

theorem mset_row_self (m : Nat → Nat → Nat) (i j v x : Nat) :
    mset m i j v i x = if x = j then v else m i x := by
  simp [mset]

theorem mset_col_self (m : Nat → Nat → Nat) (i j v x : Nat) :
    mset m i j v x j = if x = i then v else m x j := by
  by_cases hx : x = i <;> simp [mset, hx]

theorem TXedges_edgeSet_self (c : Ctx) (i j : Nat) (hj : j < c.Capacity.toNat)
    (hz : c.matrix i j = 0) : TXedges (edgeSet c i j) i = TXedges c i + 1 := by
  unfold TXedges
  rw [capacity_edgeSet]
  have hmem : j ∈ Finset.range c.Capacity.toNat := Finset.mem_range.mpr hj
  rw [← Finset.add_sum_erase _ _ hmem, ← Finset.add_sum_erase _ _ hmem]
  have hrest : ∑ x ∈ (Finset.range c.Capacity.toNat).erase j,
      (if (edgeSet c i j).matrix i x ≠ 0 then 1 else 0) =
      ∑ x ∈ (Finset.range c.Capacity.toNat).erase j, (if c.matrix i x ≠ 0 then 1 else 0) := by
    refine Finset.sum_congr rfl (fun x hx => ?_)
    have hxj : x ≠ j := (Finset.mem_erase.mp hx).1
    show (if mset c.matrix i j 1 i x ≠ 0 then 1 else 0) = _
    rw [mset_row_self, if_neg hxj]
  rw [hrest]
  show (if mset c.matrix i j 1 i j ≠ 0 then 1 else 0) + _ = (if c.matrix i j ≠ 0 then 1 else 0) + _ + 1
  rw [mset_row_self, if_pos rfl, hz]
  simp [Nat.add_comm, Nat.add_assoc, Nat.add_left_comm]

theorem TXedges_edgeSet_other (c : Ctx) (i j k : Nat) (hk : k ≠ i) :
    TXedges (edgeSet c i j) k = TXedges c k := by
  unfold TXedges
  rw [capacity_edgeSet]
  refine Finset.sum_congr rfl (fun x _ => ?_)
  show (if mset c.matrix i j 1 k x ≠ 0 then 1 else 0) = _
  rw [mset_row_other _ _ _ _ _ _ hk]

theorem RXedges_edgeSet_self (c : Ctx) (i j : Nat) (hi : i < c.Capacity.toNat)
    (hz : c.matrix i j = 0) : RXedges (edgeSet c i j) j = RXedges c j + 1 := by
  unfold RXedges
  rw [capacity_edgeSet]
  have hmem : i ∈ Finset.range c.Capacity.toNat := Finset.mem_range.mpr hi
  rw [← Finset.add_sum_erase _ _ hmem, ← Finset.add_sum_erase _ _ hmem]
  have hrest : ∑ x ∈ (Finset.range c.Capacity.toNat).erase i,
      (if (edgeSet c i j).matrix x j ≠ 0 then 1 else 0) =
      ∑ x ∈ (Finset.range c.Capacity.toNat).erase i, (if c.matrix x j ≠ 0 then 1 else 0) := by
    refine Finset.sum_congr rfl (fun x hx => ?_)
    have hxi : x ≠ i := (Finset.mem_erase.mp hx).1
    show (if mset c.matrix i j 1 x j ≠ 0 then 1 else 0) = _
    rw [mset_col_self, if_neg hxi]
  rw [hrest]
  show (if mset c.matrix i j 1 i j ≠ 0 then 1 else 0) + _ = (if c.matrix i j ≠ 0 then 1 else 0) + _ + 1
  rw [mset_col_self, if_pos rfl, hz]
  simp [Nat.add_comm, Nat.add_assoc, Nat.add_left_comm]

theorem RXedges_edgeSet_other (c : Ctx) (i j k : Nat) (hk : k ≠ j) :
    RXedges (edgeSet c i j) k = RXedges c k := by
  unfold RXedges
  rw [capacity_edgeSet]
  refine Finset.sum_congr rfl (fun x _ => ?_)
  show (if mset c.matrix i j 1 x k ≠ 0 then 1 else 0) = _
  rw [mset_col_other _ _ _ _ _ _ hk]

theorem TXedges_edgeClear_self (c : Ctx) (i j : Nat) (hj : j < c.Capacity.toNat)
    (hnz : c.matrix i j ≠ 0) : TXedges (edgeClear c i j) i + 1 = TXedges c i := by
  unfold TXedges
  rw [capacity_edgeClear]
  have hmem : j ∈ Finset.range c.Capacity.toNat := Finset.mem_range.mpr hj
  rw [← Finset.add_sum_erase _ _ hmem, ← Finset.add_sum_erase _ _ hmem]
  have hrest : ∑ x ∈ (Finset.range c.Capacity.toNat).erase j,
      (if (edgeClear c i j).matrix i x ≠ 0 then 1 else 0) =
      ∑ x ∈ (Finset.range c.Capacity.toNat).erase j, (if c.matrix i x ≠ 0 then 1 else 0) := by
    refine Finset.sum_congr rfl (fun x hx => ?_)
    have hxj : x ≠ j := (Finset.mem_erase.mp hx).1
    show (if mset c.matrix i j 0 i x ≠ 0 then 1 else 0) = _
    rw [mset_row_self, if_neg hxj]
  rw [hrest]
  show (if mset c.matrix i j 0 i j ≠ 0 then 1 else 0) + _ + 1 = (if c.matrix i j ≠ 0 then 1 else 0) + _
  rw [mset_row_self, if_pos rfl, if_pos hnz]
  simp [Nat.add_comm, Nat.add_assoc, Nat.add_left_comm]

theorem TXedges_edgeClear_other (c : Ctx) (i j k : Nat) (hk : k ≠ i) :
    TXedges (edgeClear c i j) k = TXedges c k := by
  unfold TXedges
  rw [capacity_edgeClear]
  refine Finset.sum_congr rfl (fun x _ => ?_)
  show (if mset c.matrix i j 0 k x ≠ 0 then 1 else 0) = _
  rw [mset_row_other _ _ _ _ _ _ hk]

theorem RXedges_edgeClear_self (c : Ctx) (i j : Nat) (hi : i < c.Capacity.toNat)
    (hnz : c.matrix i j ≠ 0) : RXedges (edgeClear c i j) j + 1 = RXedges c j := by
  unfold RXedges
  rw [capacity_edgeClear]
  have hmem : i ∈ Finset.range c.Capacity.toNat := Finset.mem_range.mpr hi
  rw [← Finset.add_sum_erase _ _ hmem, ← Finset.add_sum_erase _ _ hmem]
  have hrest : ∑ x ∈ (Finset.range c.Capacity.toNat).erase i,
      (if (edgeClear c i j).matrix x j ≠ 0 then 1 else 0) =
      ∑ x ∈ (Finset.range c.Capacity.toNat).erase i, (if c.matrix x j ≠ 0 then 1 else 0) := by
    refine Finset.sum_congr rfl (fun x hx => ?_)
    have hxi : x ≠ i := (Finset.mem_erase.mp hx).1
    show (if mset c.matrix i j 0 x j ≠ 0 then 1 else 0) = _
    rw [mset_col_self, if_neg hxi]
  rw [hrest]
  show (if mset c.matrix i j 0 i j ≠ 0 then 1 else 0) + _ + 1 = (if c.matrix i j ≠ 0 then 1 else 0) + _
  rw [mset_col_self, if_pos rfl, if_pos hnz]
  simp [Nat.add_comm, Nat.add_assoc, Nat.add_left_comm]

theorem RXedges_edgeClear_other (c : Ctx) (i j k : Nat) (hk : k ≠ j) :
    RXedges (edgeClear c i j) k = RXedges c k := by
  unfold RXedges
  rw [capacity_edgeClear]
  refine Finset.sum_congr rfl (fun x _ => ?_)
  show (if mset c.matrix i j 0 x k ≠ 0 then 1 else 0) = _
  rw [mset_col_other _ _ _ _ _ _ hk]

theorem TXedges_pos_of_on (c : Ctx) (i j : Nat) (hj : j < c.Capacity.toNat)
    (hnz : c.matrix i j ≠ 0) : 1 ≤ TXedges c i := by
  unfold TXedges
  have hmem : j ∈ Finset.range c.Capacity.toNat := Finset.mem_range.mpr hj
  rw [← Finset.add_sum_erase _ _ hmem, if_pos hnz]
  exact Nat.le_add_right 1 _

theorem RXedges_pos_of_on (c : Ctx) (i j : Nat) (hi : i < c.Capacity.toNat)
    (hnz : c.matrix i j ≠ 0) : 1 ≤ RXedges c j := by
  unfold RXedges
  have hmem : i ∈ Finset.range c.Capacity.toNat := Finset.mem_range.mpr hi
  rw [← Finset.add_sum_erase _ _ hmem, if_pos hnz]
  exact Nat.le_add_right 1 _

theorem CountersMod_edgeSet (c : Ctx) (i j : Nat) (hc : CountersMod c)
    (hi : i < c.Capacity.toNat) (hj : j < c.Capacity.toNat) (hz : c.matrix i j = 0) :
    CountersMod (edgeSet c i j) := by
  intro k hk
  rw [capacity_edgeSet] at hk
  obtain ⟨hTX, hRX⟩ := hc k hk
  constructor
  · show ((bumpRX (bumpTX c.header i) j) k).TXCount = _
    rw [bumpRX_TXCount, bumpTX_TXCount]
    by_cases hki : k = i
    · subst hki
      rw [if_pos rfl, TXedges_edgeSet_self c k j hj hz, hTX]
      show (TXedges c k % 256 + 1) % 256 = (TXedges c k + 1) % 256
      rw [Nat.mod_add_mod]
    · rw [if_neg hki, TXedges_edgeSet_other c i j k hki, hTX]
  · show ((bumpRX (bumpTX c.header i) j) k).RXCount = _
    rw [bumpRX_RXCount]
    by_cases hkj : k = j
    · subst hkj
      rw [if_pos rfl, bumpTX_RXCount, RXedges_edgeSet_self c i k hi hz, hRX]
      show (RXedges c k % 256 + 1) % 256 = (RXedges c k + 1) % 256
      rw [Nat.mod_add_mod]
    · rw [if_neg hkj, bumpTX_RXCount, RXedges_edgeSet_other c i j k hkj, hRX]

theorem CountersMod_edgeClear (c : Ctx) (i j : Nat) (hc : CountersMod c)
    (hi : i < c.Capacity.toNat) (hj : j < c.Capacity.toNat) (hnz : c.matrix i j ≠ 0) :
    CountersMod (edgeClear c i j) := by
  intro k hk
  rw [capacity_edgeClear] at hk
  obtain ⟨hTX, hRX⟩ := hc k hk
  constructor
  · show ((decRX (decTX c.header i) j) k).TXCount = _
    rw [decRX_TXCount, decTX_TXCount]
    by_cases hki : k = i
    · subst hki
      have hsub := TXedges_edgeClear_self c k j hj hnz
      rw [if_pos rfl, hTX, ← hsub]
      show ((TXedges (edgeClear c k j) k + 1) % 256 + 255) % 256 =
        TXedges (edgeClear c k j) k % 256
      rw [Nat.mod_add_mod]
      have h1 : TXedges (edgeClear c k j) k + 1 + 255 = TXedges (edgeClear c k j) k + 256 := by
        omega
      rw [h1, Nat.add_mod_right]
    · rw [if_neg hki, TXedges_edgeClear_other c i j k hki, hTX]
  · show ((decRX (decTX c.header i) j) k).RXCount = _
    rw [decRX_RXCount]
    by_cases hkj : k = j
    · subst hkj
      have hsub := RXedges_edgeClear_self c i k hi hnz
      rw [if_pos rfl, decTX_RXCount, hRX, ← hsub]
      show ((RXedges (edgeClear c i k) k + 1) % 256 + 255) % 256 =
        RXedges (edgeClear c i k) k % 256
      rw [Nat.mod_add_mod]
      have h1 : RXedges (edgeClear c i k) k + 1 + 255 = RXedges (edgeClear c i k) k + 256 := by
        omega
      rw [h1, Nat.add_mod_right]
    · rw [if_neg hkj, decTX_RXCount, RXedges_edgeClear_other c i j k hkj, hRX]

theorem CountersMod_assocAdd (env : Nat → Option Nat) (slotm : Nat → Int) (c : Ctx)
    (t1 t2 : Nat) (hc : CountersMod c) :
    CountersMod (applyAssocOp env slotm c (.add t1 t2)) := by
  cases hres : ContextAssociationAdd env slotm c t1 t2 with
  | none => simp only [applyAssocOp, hres]; exact hc
  | some p =>
    obtain ⟨c', r⟩ := p
    simp only [applyAssocOp, hres]
    unfold ContextAssociationAdd at hres
    dsimp only at hres
    split_ifs at hres with h1 h2 h3 h4 h5 h6
    · simp only [Option.some.injEq, Prod.mk.injEq] at hres
      obtain ⟨h, -⟩ := hres; subst h; exact hc
    · simp only [Option.some.injEq, Prod.mk.injEq] at hres
      obtain ⟨h, -⟩ := hres; subst h; exact hc
    · have hi : (slotm t1).toNat < c.Capacity.toNat := by omega
      have hj : (slotm t2).toNat < c.Capacity.toNat := by omega
      simp only [Option.some.injEq, Prod.mk.injEq] at hres
      obtain ⟨h, -⟩ := hres; subst h
      have hc1 := CountersMod_edgeSet c _ _ hc hi hj h4.1
      refine CountersMod_edgeSet _ _ _ hc1 ?_ ?_ h5.1 <;>
        rw [capacity_edgeSet] <;> assumption
    · have hi : (slotm t1).toNat < c.Capacity.toNat := by omega
      have hj : (slotm t2).toNat < c.Capacity.toNat := by omega
      simp only [Option.some.injEq, Prod.mk.injEq] at hres
      obtain ⟨h, -⟩ := hres; subst h
      exact CountersMod_edgeSet c _ _ hc hi hj h4.1
    · have hi : (slotm t1).toNat < c.Capacity.toNat := by omega
      have hj : (slotm t2).toNat < c.Capacity.toNat := by omega
      simp only [Option.some.injEq, Prod.mk.injEq] at hres
      obtain ⟨h, -⟩ := hres; subst h
      exact CountersMod_edgeSet c _ _ hc hj hi h6.1
    · simp only [Option.some.injEq, Prod.mk.injEq] at hres
      obtain ⟨h, -⟩ := hres; subst h; exact hc

theorem CountersMod_assocRemove (env : Nat → Option Nat) (slotm : Nat → Int) (c : Ctx)
    (t1 t2 : Nat) (hc : CountersMod c) :
    CountersMod (applyAssocOp env slotm c (.remove t1 t2)) := by
  cases hres : ContextAssociationRemove slotm c t1 t2 with
  | none => simp only [applyAssocOp, hres]; exact hc
  | some p =>
    obtain ⟨c', r⟩ := p
    simp only [applyAssocOp, hres]
    unfold ContextAssociationRemove at hres
    dsimp only at hres
    split_ifs at hres with h1 h2 h3 h4 h5 h6
    · simp only [Option.some.injEq, Prod.mk.injEq] at hres
      obtain ⟨h, -⟩ := hres; subst h; exact hc
    · simp only [Option.some.injEq, Prod.mk.injEq] at hres
      obtain ⟨h, -⟩ := hres; subst h; exact hc
    · have hi : (slotm t1).toNat < c.Capacity.toNat := by omega
      have hj : (slotm t2).toNat < c.Capacity.toNat := by omega
      simp only [Option.some.injEq, Prod.mk.injEq] at hres
      obtain ⟨h, -⟩ := hres; subst h
      have hc1 := CountersMod_edgeClear c _ _ hc hi hj (by omega)
      refine CountersMod_edgeClear _ _ _ hc1 ?_ ?_ (by omega) <;>
        rw [capacity_edgeClear] <;> assumption
    · have hi : (slotm t1).toNat < c.Capacity.toNat := by omega
      have hj : (slotm t2).toNat < c.Capacity.toNat := by omega
      simp only [Option.some.injEq, Prod.mk.injEq] at hres
      obtain ⟨h, -⟩ := hres; subst h
      exact CountersMod_edgeClear c _ _ hc hi hj (by omega)
    · have hi : (slotm t1).toNat < c.Capacity.toNat := by omega
      have hj : (slotm t2).toNat < c.Capacity.toNat := by omega
      simp only [Option.some.injEq, Prod.mk.injEq] at hres
      obtain ⟨h, -⟩ := hres; subst h
      exact CountersMod_edgeClear c _ _ hc hj hi (by omega)
    · simp only [Option.some.injEq, Prod.mk.injEq] at hres
      obtain ⟨h, -⟩ := hres; subst h; exact hc

/-- C6 (amended): after any finite sequence of `ContextAssociationAdd` /
`ContextAssociationRemove` calls, every slot's stored TXCount equals its
exact count of set outgoing edges reduced modulo 256, and RXCount its exact
count of set incoming edges modulo 256 — the counters are `uint8` and wrap,
so the exact (unreduced) equality of the original claim holds only while
the edge count stays below 256. -/
theorem C6_counters_mod256_preserved (env : Nat → Option Nat) (slotm : Nat → Int)
    (c : Ctx) (hc : CountersMod c) (ops : List AssocOp) :
    CountersMod (applyAssocOps env slotm c ops) := by
  induction ops generalizing c with
  | nil => exact hc
  | cons op rest ih =>
    show CountersMod ((op :: rest).foldl (applyAssocOp env slotm) c)
    rw [List.foldl_cons]
    refine ih _ ?_
    cases op with
    | add t1 t2 => exact CountersMod_assocAdd env slotm c t1 t2 hc
    | remove t1 t2 => exact CountersMod_assocRemove env slotm c t1 t2 hc

/-- Concrete 2-slot context (both slots bound, no edges) for the C6
witness. -/
def ctxC6w : Ctx :=
  { ContextCreate 0 2 with Count := 2, header := fun i => ⟨some i, 0, 0⟩ }

/-- Slot map matching `ctxC6w`. -/
def slotC6w : Nat → Int := fun t => if t < 2 then (t : Int) else -1

/-- Witness for C6: the mod-256 counter consistency holds after a concrete
add/remove/add sequence on a two-termination context. -/
theorem C6_counters_mod256_preserved_witness :
    CountersMod (applyAssocOps env3 slotC6w ctxC6w [.add 0 1, .remove 0 1, .add 1 0]) :=
  C6_counters_mod256_preserved env3 slotC6w ctxC6w (by decide)
    [.add 0 1, .remove 0 1, .add 1 0]

/-- Direction environment for the C6 counterexample: termination 0 is a
pure source (receive bit), every other termination a pure sink (send bit),
so only edges out of slot 0 are ever set. -/
def envC6 : Nat → Option Nat := fun t => if t = 0 then some 1 else some 2

/-- Slot map for a 257-slot context with termination `t` bound in slot `t`. -/
def slot257 : Nat → Int := fun t => if t < 257 then (t : Int) else -1

/-- Closed form of the C6 counterexample context after the first `k` adds:
all 257 slots bound, edges 0→1 … 0→k on, slot 0's stored TXCount is
`k % 256` (a `uint8`), each slot 1..k holding RXCount 1. -/
def stateK (k : Nat) : Ctx :=
  { Element := 0, Capacity := 257, Count := 257,
    header := fun i =>
      ⟨some i, if i = 0 then k % 256 else 0, if 1 ≤ i ∧ i ≤ k then 1 else 0⟩,
    matrix := fun a b => if a = 0 ∧ 1 ≤ b ∧ b ≤ k then 1 else 0,
    mpfObjects := [] }

theorem stateK_step (k : Nat) (hk : k < 256) :
    applyAssocOp envC6 slot257 (stateK k) (.add 0 (k + 1)) = stateK (k + 1) := by
  have hs0 : slot257 0 = 0 := by norm_num [slot257]
  have hsk : slot257 (k + 1) = ((k + 1 : Nat) : Int) := by
    have h : k + 1 < 257 := by omega
    simp [slot257, h]
  have hcap : (stateK k).Capacity = 257 := rfl
  have hm1 : (stateK k).matrix 0 (k + 1) = 0 := by
    show (if (0 : Nat) = 0 ∧ 1 ≤ k + 1 ∧ k + 1 ≤ k then 1 else 0) = 0
    rw [if_neg (by omega)]
  have hsdc1 : StreamDirectionCompatibilityCheck envC6 0 (k + 1) = true := by
    simp [StreamDirectionCompatibilityCheck, envC6, STREAM_DIRECTION_RECEIVE,
      STREAM_DIRECTION_SEND]
  have hsdc2 : StreamDirectionCompatibilityCheck envC6 (k + 1) 0 = false := by
    simp [StreamDirectionCompatibilityCheck, envC6, STREAM_DIRECTION_RECEIVE,
      STREAM_DIRECTION_SEND]
  unfold applyAssocOp ContextAssociationAdd
  dsimp only
  rw [hs0, hsk]
  simp only [Int.toNat_zero, Int.toNat_natCast]
  split_ifs with h1 h2 h3 h4 h5 h6
  · exact absurd h1 (by rw [hcap]; omega)
  · exact absurd h2 (by omega)
  · exact absurd h3 (by simp [stateK])
  · exact absurd h5.2 (by rw [hsdc2]; simp)
  · show edgeSet (stateK k) 0 (k + 1) = stateK (k + 1)
    refine Ctx_ext rfl rfl rfl ?_ ?_ rfl
    · funext i
      simp only [edgeSet, bumpRX, bumpTX, hset, stateK, inc8]
      split_ifs <;> simp_all [HeaderItem.mk.injEq] <;> omega
    · funext a b
      simp only [edgeSet, mset, stateK]
      split_ifs <;> omega
  · exact absurd ⟨hm1, hsdc1⟩ h4
  · exact absurd ⟨hm1, hsdc1⟩ h4

theorem applyAssocOps_append (env : Nat → Option Nat) (slotm : Nat → Int) (c : Ctx)
    (ops : List AssocOp) (op : AssocOp) :
    applyAssocOps env slotm c (ops ++ [op]) =
      applyAssocOp env slotm (applyAssocOps env slotm c ops) op := by
  simp [applyAssocOps, List.foldl_append]

/-- The first `k` association adds of the C6 counterexample. -/
def opsUpTo (k : Nat) : List AssocOp := (List.range k).map (fun j => .add 0 (j + 1))

theorem applyOps_upTo (k : Nat) (hk : k ≤ 256) :
    applyAssocOps envC6 slot257 (stateK 0) (opsUpTo k) = stateK k := by
  induction k with
  | zero => rfl
  | succ n ih =>
    have hn : n ≤ 256 := by omega
    have hsplit : opsUpTo (n + 1) = opsUpTo n ++ [.add 0 (n + 1)] := by
      simp [opsUpTo, List.range_succ]
    rw [hsplit, applyAssocOps_append, ih hn, stateK_step n (by omega)]

theorem CountersMod_state0 : CountersMod (stateK 0) := by
  intro k hk
  have hTX : TXedges (stateK 0) k = 0 := by
    unfold TXedges
    refine Finset.sum_eq_zero (fun j _ => ?_)
    rw [if_neg]
    show ¬((if k = 0 ∧ 1 ≤ j ∧ j ≤ 0 then 1 else 0) ≠ 0)
    rw [if_neg (by omega)]
    omega
  have hRX : RXedges (stateK 0) k = 0 := by
    unfold RXedges
    refine Finset.sum_eq_zero (fun j _ => ?_)
    rw [if_neg]
    show ¬((if j = 0 ∧ 1 ≤ k ∧ k ≤ 0 then 1 else 0) ≠ 0)
    rw [if_neg (by omega)]
    omega
  constructor
  · show (if k = 0 then 0 % 256 else 0) = TXedges (stateK 0) k % 256
    rw [hTX]
    split_ifs <;> rfl
  · show (if 1 ≤ k ∧ k ≤ 0 then 1 else 0) = RXedges (stateK 0) k % 256
    rw [hRX, if_neg (by omega)]

theorem TXedges_state256 : TXedges (stateK 256) 0 = 256 := by
  unfold TXedges
  have hcap : (stateK 256).Capacity.toNat = 257 := rfl
  rw [hcap]
  have h0 : (0 : Nat) ∈ Finset.range 257 := Finset.mem_range.mpr (by norm_num)
  rw [← Finset.add_sum_erase _ _ h0]
  have hz : (if (stateK 256).matrix 0 0 ≠ 0 then 1 else 0) = 0 := by
    rw [if_neg]
    show ¬((if (0 : Nat) = 0 ∧ 1 ≤ 0 ∧ 0 ≤ 256 then 1 else 0) ≠ 0)
    rw [if_neg (by omega)]
    omega
  rw [hz]
  have hone : ∀ j ∈ (Finset.range 257).erase 0,
      (if (stateK 256).matrix 0 j ≠ 0 then 1 else 0) = 1 := by
    intro j hj
    obtain ⟨hj0, hjr⟩ := Finset.mem_erase.mp hj
    have hjlt : j < 257 := Finset.mem_range.mp hjr
    rw [if_pos]
    show (if (0 : Nat) = 0 ∧ 1 ≤ j ∧ j ≤ 256 then 1 else 0) ≠ 0
    rw [if_pos ⟨rfl, by omega, by omega⟩]
    omega
  rw [Finset.sum_congr rfl hone, Finset.sum_const, smul_eq_mul, mul_one,
    Finset.card_erase_of_mem h0, Finset.card_range]

/-- C6 counterexample: start from a consistent 257-slot context with all
slots bound and no edges (`stateK 0` satisfies the counter-consistency
invariant), and add the 256 associations 0→1 … 0→256.  Afterwards slot 0
has 256 set outgoing edges but its stored TXCount — a `uint8` that
wrapped — reads 0, refuting the claimed exact equality between
`header[k].TXCount` and the count of set outgoing edges. -/
theorem C6_counterexample_uint8_counter_wraps :
    ((applyAssocOps envC6 slot257 (stateK 0) (opsUpTo 256)).header 0).TXCount = 0 ∧
    TXedges (applyAssocOps envC6 slot257 (stateK 0) (opsUpTo 256)) 0 = 256 ∧
    CountersMod (stateK 0) := by
  rw [applyOps_upTo 256 le_rfl]
  exact ⟨rfl, TXedges_state256, CountersMod_state0⟩

/-- Buffer shape: detector `d` holds exactly the digits `es` in FIFO
positions, zero elsewhere, with `Digits` equal to the queue length. -/
def BufOk (d : DtmfDetector) (es : List Nat) : Prop :=
  (∀ i, d.buf i = es.getD i 0) ∧ d.Digits = (es.length : Int)

theorem BufOk_det0 : BufOk det0 [] := by
  constructor
  · intro i
    show (0 : Nat) = List.getD [] i 0
    rw [List.getD_nil]
  · rfl

theorem addDigit_fill (d : DtmfDetector) (es : List Nat) (a : Nat)
    (hbuf : BufOk d es) (hlen : es.length < 32) (ha : a ≠ 0) :
    BufOk (DtmfDetectorAddDigit d a) (es ++ [a]) ∧
    (DtmfDetectorAddDigit d a).LostDigits = d.LostDigits := by
  obtain ⟨hb, hd⟩ := hbuf
  have hlt : d.Digits < (MPF_DTMFDET_BUFFER_LEN : Int) := by
    rw [hd]; unfold MPF_DTMFDET_BUFFER_LEN; omega
  have hds : d.Digits.toNat = es.length := by omega
  unfold DtmfDetectorAddDigit
  rw [if_neg ha, if_pos hlt]
  refine ⟨⟨?_, ?_⟩, rfl⟩
  · intro i
    show bset (bset d.buf d.Digits.toNat a) (d.Digits.toNat + 1) 0 i = _
    rw [hds]
    unfold bset
    by_cases h1 : i = es.length + 1
    · rw [if_pos h1, h1]
      rw [List.getD_eq_default _ _ (by simp)]
    · rw [if_neg h1]
      by_cases h2 : i = es.length
      · rw [if_pos h2, h2]
        rw [List.getD_append_right _ _ _ _ (Nat.le_refl _), Nat.sub_self]
        rfl
      · rw [if_neg h2, hb i]
        by_cases h3 : i < es.length
        · rw [List.getD_append _ _ _ _ h3]
        · rw [List.getD_eq_default _ _ (by omega), List.getD_eq_default _ _ (by simp; omega)]
  · show d.Digits + 1 = _
    rw [hd]
    simp

theorem addAll_fill (ds : List Nat) (hlen : ds.length ≤ 32) (hnz : ∀ x ∈ ds, x ≠ 0) :
    BufOk (ds.foldl DtmfDetectorAddDigit det0) ds ∧
    (ds.foldl DtmfDetectorAddDigit det0).LostDigits = 0 := by
  induction ds using List.reverseRecOn with
  | nil => exact ⟨BufOk_det0, rfl⟩
  | append_singleton l a ih =>
    have hl : l.length ≤ 32 := by simp at hlen; omega
    have hl' : l.length < 32 := by simp at hlen; omega
    have hnzl : ∀ x ∈ l, x ≠ 0 := fun x hx => hnz x (by simp [hx])
    have ha : a ≠ 0 := hnz a (by simp)
    obtain ⟨hbuf, hlost⟩ := ih hl hnzl
    rw [List.foldl_append]
    have hstep := addDigit_fill (l.foldl DtmfDetectorAddDigit det0) l a hbuf hl' ha
    refine ⟨hstep.1, ?_⟩
    show (DtmfDetectorAddDigit (List.foldl DtmfDetectorAddDigit det0 l) a).LostDigits = 0
    rw [hstep.2, hlost]

theorem digitGet_empty (d : DtmfDetector) (hbuf : BufOk d []) :
    DtmfDetectorDigitGet d = (0, d) := by
  have h0 : d.buf 0 = 0 := by rw [hbuf.1 0]; rfl
  unfold DtmfDetectorDigitGet
  rw [h0]
  simp

theorem digitGet_cons (d : DtmfDetector) (e : Nat) (es : List Nat) (he : e ≠ 0)
    (hlen : (e :: es).length ≤ 32) (hbuf : BufOk d (e :: es)) :
    (DtmfDetectorDigitGet d).1 = e ∧ BufOk (DtmfDetectorDigitGet d).2 es ∧
    (DtmfDetectorDigitGet d).2.LostDigits = d.LostDigits := by
  obtain ⟨hb, hd⟩ := hbuf
  have h0 : d.buf 0 = e := by rw [hb 0]; rfl
  have hpos : d.buf 0 > 0 := by rw [h0]; omega
  unfold DtmfDetectorDigitGet
  dsimp only
  rw [if_pos hpos]
  refine ⟨h0, ⟨?_, ?_⟩, rfl⟩
  · intro i
    show (if i < 32 then d.buf (i + 1) else d.buf i) = es.getD i 0
    by_cases hlt : i < 32
    · rw [if_pos hlt, hb (i + 1)]
      rfl
    · rw [if_neg hlt, hb i]
      have h1 : (e :: es).getD i 0 = 0 :=
        List.getD_eq_default _ _ (by simp at hlen ⊢; omega)
      have h2 : es.getD i 0 = 0 :=
        List.getD_eq_default _ _ (by simp at hlen ⊢; omega)
      rw [h1, h2]
  · show d.Digits - 1 = (es.length : Int)
    rw [hd]
    simp

theorem popList_empty (d : DtmfDetector) (hbuf : BufOk d []) (k : Nat) :
    popList d k = List.replicate k 0 := by
  induction k with
  | zero => rfl
  | succ n ih =>
    show (DtmfDetectorDigitGet d).1 :: popList (DtmfDetectorDigitGet d).2 n =
      List.replicate (n + 1) 0
    rw [digitGet_empty d hbuf]
    rw [List.replicate_succ, ih]

theorem popList_drain (es : List Nat) (k : Nat) (d : DtmfDetector) (hlen : es.length ≤ 32)
    (hnz : ∀ x ∈ es, x ≠ 0) (hbuf : BufOk d es) :
    popList d (es.length + k) = es ++ List.replicate k 0 := by
  induction es generalizing d with
  | nil => simpa using popList_empty d hbuf k
  | cons e es' ih =>
    have hstep := digitGet_cons d e es' (hnz e (by simp)) (by simpa using hlen) hbuf
    rw [show (e :: es').length + k = (es'.length + k) + 1 from by simp; omega]
    show (DtmfDetectorDigitGet d).1 :: popList (DtmfDetectorDigitGet d).2 (es'.length + k) =
      (e :: es') ++ List.replicate k 0
    rw [hstep.1, ih ((DtmfDetectorDigitGet d).2) (by simp at hlen; omega)
      (fun x hx => hnz x (by simp [hx])) hstep.2.1]
    rfl

theorem lost_mono_op (d : DtmfDetector) (op : DetOp) :
    d.LostDigits ≤ (applyDetOp d op).LostDigits := by
  cases op with
  | add digit =>
    show d.LostDigits ≤ (DtmfDetectorAddDigit d digit).LostDigits
    unfold DtmfDetectorAddDigit
    split_ifs <;> simp
  | get =>
    show d.LostDigits ≤ (DtmfDetectorDigitGet d).2.LostDigits
    unfold DtmfDetectorDigitGet
    dsimp only
    split_ifs <;> simp
  | frame f => exact le_refl _
  | sample s => exact le_refl _

theorem lost_mono (ops : List DetOp) (d : DtmfDetector) :
    d.LostDigits ≤ (ops.foldl applyDetOp d).LostDigits := by
  induction ops generalizing d with
  | nil => exact le_refl _
  | cons op rest ih => exact le_trans (lost_mono_op d op) (ih _)

theorem addDigit_full (d : DtmfDetector) (x : Nat) (hx : x ≠ 0)
    (hfull : ¬ d.Digits < (MPF_DTMFDET_BUFFER_LEN : Int)) :
    DtmfDetectorAddDigit d x = { d with LostDigits := d.LostDigits + 1 } := by
  unfold DtmfDetectorAddDigit
  rw [if_neg hx, if_neg hfull]

/-- C10: from a fresh detector, adding 33 nonzero digits yields exactly the
first 32 of them back in FIFO order through `DtmfDetectorDigitGet`, the
33rd pop returning the empty sentinel 0, with the lost-digit counter at
exactly 1; moreover the lost-digit counter never decreases under any
sequence of non-reset detector operations, while `DtmfDetectorReset` puts
it back to 0. -/
theorem C10_digit_buffer_fifo_and_lost_counter (ds : List Nat) (h33 : ds.length = 33)
    (hnz : ∀ x ∈ ds, x ≠ 0) (d : DtmfDetector) (ops : List DetOp) :
    (popList (ds.foldl DtmfDetectorAddDigit det0) 33 = ds.take 32 ++ [0] ∧
     (ds.foldl DtmfDetectorAddDigit det0).LostDigits = 1) ∧
    d.LostDigits ≤ (ops.foldl applyDetOp d).LostDigits ∧
    (DtmfDetectorReset d).LostDigits = 0 := by
  refine ⟨?_, lost_mono ops d, rfl⟩
  have hsplit : ds = ds.take 32 ++ ds.drop 32 := (List.take_append_drop 32 ds).symm
  have hlen32 : (ds.take 32).length = 32 := by rw [List.length_take]; omega
  obtain ⟨x, hx⟩ : ∃ x, ds.drop 32 = [x] :=
    List.length_eq_one.mp (by rw [List.length_drop]; omega)
  have hnz32 : ∀ y ∈ ds.take 32, y ≠ 0 := fun y hy => hnz y (List.mem_of_mem_take hy)
  have hxnz : x ≠ 0 := by
    refine hnz x ?_
    rw [hsplit, hx]
    simp
  obtain ⟨hbuf, hlost⟩ := addAll_fill (ds.take 32) (by omega) hnz32
  have hfold : ds.foldl DtmfDetectorAddDigit det0 =
      DtmfDetectorAddDigit ((ds.take 32).foldl DtmfDetectorAddDigit det0) x := by
    conv_lhs => rw [hsplit, hx]
    rw [List.foldl_append]
    rfl
  have hfull : ¬ ((ds.take 32).foldl DtmfDetectorAddDigit det0).Digits <
      (MPF_DTMFDET_BUFFER_LEN : Int) := by
    rw [hbuf.2, hlen32]
    norm_num [MPF_DTMFDET_BUFFER_LEN]
  rw [hfold, addDigit_full _ x hxnz hfull]
  constructor
  · have hdrain := popList_drain (ds.take 32) 1
      ({ (ds.take 32).foldl DtmfDetectorAddDigit det0 with
        LostDigits := ((ds.take 32).foldl DtmfDetectorAddDigit det0).LostDigits + 1 })
      (by omega) hnz32 ⟨hbuf.1, hbuf.2⟩
    rw [hlen32] at hdrain
    rw [show (33 : Nat) = 32 + 1 from rfl, hdrain]
    rfl
  · show ((ds.take 32).foldl DtmfDetectorAddDigit det0).LostDigits + 1 = 1
    rw [hlost]
    omega

/-- Concrete digit list (1..33) for the C10 witness. -/
def ds33 : List Nat := (List.range 33).map (fun j => j + 1)

/-- Witness for C10 at a concrete digit list, detector and operation
list. -/
theorem C10_digit_buffer_fifo_and_lost_counter_witness :
    (popList (ds33.foldl DtmfDetectorAddDigit det0) 33 = ds33.take 32 ++ [0] ∧
     (ds33.foldl DtmfDetectorAddDigit det0).LostDigits = 1) ∧
    det0.LostDigits ≤ ([DetOp.add 5, DetOp.get].foldl applyDetOp det0).LostDigits ∧
    (DtmfDetectorReset det0).LostDigits = 0 :=
  C10_digit_buffer_fifo_and_lost_counter ds33 (by decide) (by decide) det0
    [DetOp.add 5, DetOp.get]
